import Mathlib

/-!
Verification of the BRAPI wrapper's response-normalization pipeline
(`brapi_wrapper.py`): the envelope routing tail of `make_request`, the
per-ticker fan-out fetchers (`fetch_quote`, `fetch_balance_sheet_history`),
the statement tabulation, the price-field extractors (the
`fetch_quote_open` family), and the forward-fill series alignment of
`extract_common_stock_data`.

The Python code is embedded shallowly: JSON payloads become an inductive
`JVal` (objects are insertion-ordered association lists, like `dict`);
numeric values are `Rat` (the only arithmetic in the code is exact
division by 1000); the remote call `make_request` is abstracted as an
oracle `String → Option JVal` giving the already-routed payload per
endpoint (`none` models every transport-failure path, all of which
return `None`); Python exceptions are modelled with `Except PyExn`, and
each `try/except` boundary is an explicit handler.
-/

namespace BrapiWrapper

/-- A decoded JSON value as manipulated by the wrapper.  `obj` keeps the
key order of the Python `dict`. -/
inductive JVal where
  | null
  | bool (b : Bool)
  | num (q : Rat)
  | str (s : String)
  | arr (xs : List JVal)
  | obj (fields : List (String × JVal))

/-- First binding of a key in an association list (Python `dict` lookup;
real dicts are duplicate-free, so first-match is exact). -/
def lookupA {κ α : Type} [DecidableEq κ] : List (κ × α) → κ → Option α
  | [], _ => none
  | (k, v) :: rest, key => if k = key then some v else lookupA rest key

/-- Python `key in dict`. -/
def hasKeyA {κ α : Type} [DecidableEq κ] (fields : List (κ × α)) (key : κ) : Bool :=
  (lookupA fields key).isSome

/-- Python `dict.get(key, default)`. -/
def getD {κ α : Type} [DecidableEq κ] (fields : List (κ × α)) (key : κ) (dflt : α) : α :=
  match lookupA fields key with
  | some v => v
  | none => dflt

/-- Python `dict[key] = value`: overwrite in place if the key exists
(keeping its position), else append. -/
def setA {κ α : Type} [DecidableEq κ] : List (κ × α) → κ → α → List (κ × α)
  | [], key, v => [(key, v)]
  | (k, w) :: rest, key, v =>
    if k = key then (k, v) :: rest else (k, w) :: setA rest key v

/-- Python truthiness of a JSON value (`if response:`, `if historical_data:`). -/
def JVal.truthy : JVal → Bool
  | .null => false
  | .bool b => b
  | .num q => q ≠ 0
  | .str s => s ≠ ""
  | .arr xs => !xs.isEmpty
  | .obj fields => !fields.isEmpty

/-- Envelope routing tail of `make_request` (brapi_wrapper.py lines
87-116): on a dict payload probe `results`, `stocks`, `currency`,
`inflation`, `prime-rate`, `coins` in that order and return the first hit;
if none is present return the dict unchanged.  Non-dict payloads are
returned unchanged. -/
def routeEnvelope (payload : JVal) : JVal :=
  match payload with
  | .obj fields =>
    if hasKeyA fields "results" then getD fields "results" .null
    else if hasKeyA fields "stocks" then getD fields "stocks" .null
    else if hasKeyA fields "currency" then getD fields "currency" .null
    else if hasKeyA fields "inflation" then getD fields "inflation" .null
    else if hasKeyA fields "prime-rate" then getD fields "prime-rate" .null
    else if hasKeyA fields "coins" then getD fields "coins" .null
    else .obj fields
  | p => p

/-- The spec's fixed, ordered candidate key list for the Envelope Router. -/
def envelopeCandidates : List String :=
  ["results", "stocks", "currency", "inflation", "prime-rate", "coins"]

/-- Spec-side description of the router on object payloads: the value of
the first present candidate key, if any. -/
def firstCandidateValue (fields : List (String × JVal)) : Option JVal :=
  envelopeCandidates.findSome? (lookupA fields)

/-- `ticker.replace('.SA', '')`: remove every (non-overlapping,
left-to-right) occurrence of `.SA`, exactly as Python `str.replace` with
an empty replacement does — not merely a suffix strip.  With fewer than
three characters left no occurrence can start, so they are emitted. -/
def stripSA : List Char → List Char
  | [] => []
  | [c] => [c]
  | [c, d] => [c, d]
  | c :: d :: e :: rest =>
    if c = '.' ∧ d = 'S' ∧ e = 'A' then stripSA rest
    else c :: stripSA (d :: e :: rest)

/-- `ticker.replace('.SA', '') + '.SA'` (brapi_wrapper.py line 143 and its
clones): the wrapper's ticker canonicalization. -/
def canonicalize (t : String) : String :=
  ⟨stripSA t.data ++ ['.', 'S', 'A']⟩

/-- Python exception classes that the modelled code can raise.  The
wrapper never branches on the class — every handler is
`except Exception` — so the constructors only document provenance. -/
inductive PyExn where
  | valueError
  | typeError
  | attributeError
  | keyError
  | indexError
  | other
deriving DecidableEq

/-- An element of a tickers collection: a string, or any non-string
object (the code treats all non-strings alike). -/
inductive PyElem where
  | str (s : String)
  | nonStr
deriving DecidableEq

/-- The `tickers` argument of a fetch function: a single string, a
list/tuple (both modelled as `list`), or any other object. -/
inductive PyInput where
  | str (s : String)
  | list (es : List PyElem)
  | other
deriving DecidableEq

/-- The transport boundary: what `make_request` returns for an endpoint —
`none` for every failure path, otherwise the routed payload.  Each fetch
function sends one fixed parameter shape with every request of a call, so
abstracting on the endpoint string alone is faithful per call. -/
abbrev Oracle := String → Option JVal

/-- The endpoint the fan-out functions hit for one ticker:
`f'api/quote/{ticker_sa}'` with `ticker_sa` canonicalized. -/
def quoteEndpoint (t : String) : String :=
  "api/quote/" ++ canonicalize t

/-- Lines 159-164 of `fetch_quote`: locate `historicalDataPrice` in a dict
response or in the head of a list response; `.get` on a non-dict head
raises; other shapes leave the data `None`. -/
def extractHistQuote : JVal → Except PyExn JVal
  | .obj fields => .ok (getD fields "historicalDataPrice" (.arr []))
  | .arr [] => .ok .null
  | .arr (x :: _) =>
    match x with
    | .obj fields => .ok (getD fields "historicalDataPrice" (.arr []))
    | _ => .error .attributeError
  | _ => .ok .null

/-- Lines 166-177 of `fetch_quote` at the default
`fundamental=False, dividends=False`: a truthy `historicalDataPrice`
becomes the per-ticker frame.  Building the frame needs a list of record
dicts, at least one of which carries a `date` column; other shapes raise.
(The epoch-seconds date conversion itself is not modelled: the records
are kept as the per-ticker result.) -/
def buildQuoteDf (hist : JVal) : Except PyExn (Option (List JVal)) :=
  if hist.truthy then
    match hist with
    | .arr records =>
      if records.all (fun r => match r with | .obj _ => true | _ => false) then
        if records.any (fun r => match r with | .obj fs => hasKeyA fs "date" | _ => false) then
          .ok (some records)
        else .error .keyError
      else .error .other
    | _ => .error .other
  else .ok none

/-- The per-ticker result of `fetch_quote`: the historical price records. -/
abbrev QuoteDf := List JVal

/-- What a fan-out fetch function hands back when it has data: the
`results` dict, or (for `fetch_quote` on a single ticker) one entity's
frame. -/
inductive FetchRet (α : Type) where
  | mapping (m : List (String × α))
  | single (x : α)

/-- The per-ticker loop of `fetch_quote` (lines 137-194); `acc` is the
`results` dict.  Non-string elements are skipped with a warning; falsy
responses are skipped; exceptions unwind. -/
def fetchQuoteLoop (oracle : Oracle) (acc : List (String × QuoteDf)) :
    List PyElem → Except PyExn (List (String × QuoteDf))
  | [] => .ok acc
  | .nonStr :: rest => fetchQuoteLoop oracle acc rest
  | .str t :: rest =>
    match oracle (quoteEndpoint t) with
    | none => fetchQuoteLoop oracle acc rest
    | some resp =>
      if resp.truthy then
        match extractHistQuote resp with
        | .error e => .error e
        | .ok hist =>
          match buildQuoteDf hist with
          | .error e => .error e
          | .ok none => fetchQuoteLoop oracle acc rest
          | .ok (some df) => fetchQuoteLoop oracle (setA acc t df) rest
      else fetchQuoteLoop oracle acc rest

/-- Line 196 of `fetch_quote`:
`results if len(tickers) > 1 else results[tickers[0]] if results else None`.
Indexing `tickers[0]` on an empty list raises IndexError; looking a
non-string (unhashable or missing) key up in `results` raises. -/
def fetchQuoteFinish (es : List PyElem) (results : List (String × QuoteDf)) :
    Except PyExn (Option (FetchRet QuoteDf)) :=
  if 1 < es.length then .ok (some (.mapping results))
  else if results.isEmpty then .ok none
  else
    match es with
    | .str t :: _ =>
      match lookupA results t with
      | some df => .ok (some (.single df))
      | none => .error .keyError
    | .nonStr :: _ => .error .typeError
    | [] => .error .indexError

/-- The `try` body of `fetch_quote` (lines 130-196): type-check the
`tickers` argument, fan out, shape the result. -/
def fetchQuoteBody (oracle : Oracle) : PyInput → Except PyExn (Option (FetchRet QuoteDf))
  | .str s =>
    match fetchQuoteLoop oracle [] [.str s] with
    | .error e => .error e
    | .ok results => fetchQuoteFinish [.str s] results
  | .list es =>
    match fetchQuoteLoop oracle [] es with
    | .error e => .error e
    | .ok results => fetchQuoteFinish es results
  | .other => .error .valueError

/-- `fetch_quote` (lines 128-200): the whole body in one `try`;
`except Exception` logs and returns `None`. -/
def fetchQuote (oracle : Oracle) (tickers : PyInput) : Option (FetchRet QuoteDf) :=
  match fetchQuoteBody oracle tickers with
  | .ok v => v
  | .error _ => none

/-- Python `value.get(key, default)` where `value` may not be a dict, in
which case `.get` raises AttributeError. -/
def jget (v : JVal) (key : String) (dflt : JVal) : Except PyExn JVal :=
  match v with
  | .obj fields => .ok (getD fields key dflt)
  | _ => .error .attributeError

/-- Line 379: `value / 1000 if isinstance(value, (int, float)) else value`.
`bool` is an `int` subclass in Python, so booleans are divided too
(`True/1000 == 0.001`); everything else passes through unchanged. -/
def rescaleCell : JVal → JVal
  | .num q => .num (q / 1000)
  | .bool b => .num ((if b then 1 else 0) / 1000)
  | v => v

/-- `pd.to_datetime(statement['endDate']).strftime('%Y-%m-%d')` (line
372), modelled as the identity on (ISO) strings; non-string dates are
modelled as a parse failure. -/
def dateString : JVal → Except PyExn String
  | .str s => .ok s
  | _ => .error .other

/-- Lines 374-379: fold one statement's fields into `data_dict`
(metric key → date → rescaled value), skipping `endDate`. -/
def recordInto (dd : List (String × List (String × JVal))) (date : String) :
    List (String × JVal) → List (String × List (String × JVal))
  | [] => dd
  | (k, v) :: rest =>
    if k = "endDate" then recordInto dd date rest
    else recordInto (setA dd k (setA (getD dd k []) date (rescaleCell v))) date rest

/-- Lines 370-379: iterate the statement records; records without an
`endDate` key are skipped; non-dict records raise (the membership test or
indexing on them does). -/
def tabulateGo (acc : List (String × List (String × JVal))) :
    List JVal → Except PyExn (List (String × List (String × JVal)))
  | [] => .ok acc
  | .obj fields :: rest =>
    if hasKeyA fields "endDate" then
      match dateString (getD fields "endDate" .null) with
      | .error e => .error e
      | .ok date => tabulateGo (recordInto acc date fields) rest
    else tabulateGo acc rest
  | _ :: _ => .error .typeError

/-- The tabulated matrix: rows are normalized metric labels in `data_dict`
insertion order, columns are the period dates sorted ascending, every
cell numeric-or-null (float64 in the source). -/
structure MetricMatrix where
  cols : List String
  rows : List (String × List (Option Rat))
deriving DecidableEq

/-- Decimal value of a digit string. -/
def decDigits (cs : List Char) : Nat :=
  cs.foldl (fun acc c => 10 * acc + (c.toNat - '0'.toNat)) 0

/-- `pd.to_numeric(·, errors='coerce')` on one cell, for the value shapes
a statement record can hold: numbers pass through, booleans become 0/1,
strings parse when they are plain decimal digit strings and otherwise
coerce to null, and container/null values coerce to null. -/
def coerceCell : JVal → Option Rat
  | .num q => some q
  | .bool b => some (if b then 1 else 0)
  | .str s =>
    if !s.data.isEmpty ∧ s.data.all (·.isDigit) then some (decDigits s.data) else none
  | _ => none

/-- One step of Python `str.title()`: an alphabetic character is
uppercased after a non-alphabetic one and lowercased otherwise. -/
def titleGo : Bool → List Char → List Char
  | _, [] => []
  | prevAlpha, c :: rest =>
    if c.isAlpha then
      (if prevAlpha then c.toLower else c.toUpper) :: titleGo true rest
    else c :: titleGo false rest

/-- Line 384: `idx.replace('_', ' ').title()`. -/
def normalizeLabel (s : String) : String :=
  ⟨titleGo false (s.data.map (fun c => if c = '_' then ' ' else c))⟩

/-- The union of all period dates in `data_dict`, sorted ascending
(`df.sort_index(axis=1)` on the transposed frame). -/
def matrixCols (dd : List (String × List (String × JVal))) : List String :=
  List.insertionSort (fun a b => a ≤ b)
    ((dd.foldl (fun acc kv => acc ++ kv.2.map Prod.fst) []).dedup)

/-- Lines 381-384: `pd.DataFrame(data_dict).transpose()`, per-cell
`to_numeric` coercion (absent cells are null), ascending column sort, and
row-label normalization. -/
def buildMatrix (dd : List (String × List (String × JVal))) : MetricMatrix :=
  let cols := matrixCols dd
  { cols := cols
  , rows := dd.map (fun kv =>
      (normalizeLabel kv.1,
       cols.map (fun d =>
         match lookupA kv.2 d with
         | some v => coerceCell v
         | none => none))) }

/-- Lines 360-361: a list response is replaced by its head (or `{}` when
empty). -/
def unwrapListResp : JVal → JVal
  | .arr [] => .obj []
  | .arr (x :: _) => x
  | r => r

/-- Lines 363-365:
`response.get('balanceSheetHistory', {}).get('balanceSheetStatements', [])`.
A non-dict (unwrapped) response never reaches the statement extraction;
that skip is modelled as null statements, which are falsy. -/
def bshStatements (resp : JVal) : Except PyExn JVal :=
  match unwrapListResp resp with
  | .obj fields =>
    jget (getD fields "balanceSheetHistory" (.obj [])) "balanceSheetStatements" (.arr [])
  | _ => .ok .null

/-- Lines 363-389: tabulate one ticker's balance-sheet statements into a
matrix; `none` means the entity contributes nothing to `results` (falsy
statements are never tabulated). -/
def processBSHTicker (resp : JVal) : Except PyExn (Option MetricMatrix) :=
  match bshStatements resp with
  | .error e => .error e
  | .ok stmts =>
    if stmts.truthy then
      match stmts with
      | .arr records =>
        match tabulateGo [] records with
        | .error e => .error e
        | .ok dd => .ok (some (buildMatrix dd))
      | _ => .error .typeError
    else .ok none

/-- The per-ticker loop of `fetch_balance_sheet_history` (lines 343-389). -/
def fetchBSHLoop (oracle : Oracle) (acc : List (String × MetricMatrix)) :
    List PyElem → Except PyExn (List (String × MetricMatrix))
  | [] => .ok acc
  | .nonStr :: rest => fetchBSHLoop oracle acc rest
  | .str t :: rest =>
    match oracle (quoteEndpoint t) with
    | none => fetchBSHLoop oracle acc rest
    | some resp =>
      if resp.truthy then
        match processBSHTicker resp with
        | .error e => .error e
        | .ok none => fetchBSHLoop oracle acc rest
        | .ok (some m) => fetchBSHLoop oracle (setA acc t m) rest
      else fetchBSHLoop oracle acc rest

/-- The `try` body of `fetch_balance_sheet_history` (lines 337-391); line
391 is `return results if results else None` — always the dict, never a
single frame. -/
def fetchBSHBody (oracle : Oracle) : PyInput → Except PyExn (Option (FetchRet MetricMatrix))
  | .str s =>
    (fetchBSHLoop oracle [] [.str s]).map (fun results =>
      if results.isEmpty then none else some (.mapping results))
  | .list es =>
    (fetchBSHLoop oracle [] es).map (fun results =>
      if results.isEmpty then none else some (.mapping results))
  | .other => .error .valueError

/-- `fetch_balance_sheet_history` (lines 335-395): body in one `try`;
`except Exception` logs and returns `None`. -/
def fetchBalanceSheetHistory (oracle : Oracle) (tickers : PyInput) :
    Option (FetchRet MetricMatrix) :=
  match fetchBSHBody oracle tickers with
  | .ok v => v
  | .error _ => none

/-- Lines 942-947 of `fetch_quote_open`: the dict branch probes `results`
again (the router already unwrapped it), falling back to `[{}][0] = {}`
when absent; the list branch uses the head record; other shapes leave the
data `None`.  Indexing a non-list raises; `.get` on a non-dict raises. -/
def extractHistOpen : JVal → Except PyExn JVal
  | .obj fields =>
    match getD fields "results" (.arr [.obj []]) with
    | .arr [] => .error .indexError
    | .arr (x :: _) => jget x "historicalDataPrice" (.arr [])
    | _ => .error .typeError
  | .arr [] => .ok .null
  | .arr (x :: _) => jget x "historicalDataPrice" (.arr [])
  | _ => .ok .null

/-- `df['date']` per record (lines 950-954): every record must be a dict
carrying a numeric epoch-seconds `date`, else the frame build or the date
conversion raises. -/
def recordDate : JVal → Except PyExn Rat
  | .obj fields =>
    match lookupA fields "date" with
    | some (.num q) => .ok q
    | some _ => .error .valueError
    | none => .error .keyError
  | _ => .error .keyError

/-- One ticker's field series (lines 950-958): (epoch date, field value)
pairs in record order; records missing the field contribute null. -/
def seriesOf (field : String) : List JVal → Except PyExn (List (Rat × Option JVal))
  | [] => .ok []
  | r :: rest =>
    match recordDate r with
    | .error e => .error e
    | .ok d =>
      match seriesOf field rest with
      | .error e => .error e
      | .ok tail =>
        .ok ((d, match r with | .obj fs => lookupA fs field | _ => none) :: tail)

/-- Lines 949-958: a truthy record list becomes the ticker's series;
`df[field]` raises KeyError when no record carries the field; a truthy
non-list raises in the frame build. -/
def extractFieldSeries (field : String) (hist : JVal) :
    Except PyExn (Option (List (Rat × Option JVal))) :=
  if hist.truthy then
    match hist with
    | .arr records =>
      if records.any (fun r => match r with | .obj fs => hasKeyA fs field | _ => false) then
        (seriesOf field records).map some
      else .error .keyError
    | _ => .error .valueError
  else .ok none

/-- The per-ticker loop of `fetch_quote_open` (lines 930-958).  Unlike the
statement fetchers there is no isinstance guard: `ticker.replace` on a
non-string raises AttributeError and the exception unwinds to the
function's outer handler. -/
def fetchOpenLoop (oracle : Oracle) (acc : List (String × List (Rat × Option JVal))) :
    List PyElem → Except PyExn (List (String × List (Rat × Option JVal)))
  | [] => .ok acc
  | .nonStr :: _ => .error .attributeError
  | .str t :: rest =>
    match oracle (quoteEndpoint t) with
    | none => fetchOpenLoop oracle acc rest
    | some resp =>
      if resp.truthy then
        match extractHistOpen resp with
        | .error e => .error e
        | .ok hist =>
          match extractFieldSeries "open" hist with
          | .error e => .error e
          | .ok none => fetchOpenLoop oracle acc rest
          | .ok (some s) => fetchOpenLoop oracle (setA acc t s) rest
      else fetchOpenLoop oracle acc rest

/-- A date-indexed per-ticker price matrix (dates ascending, one column
per ticker, float64 cells). -/
structure PriceMatrix where
  dates : List Rat
  cols : List (String × List (Option Rat))
deriving DecidableEq

/-- The empty 0-by-0 frame `pd.DataFrame()`. -/
def emptyPriceMatrix : PriceMatrix :=
  { dates := [], cols := [] }

/-- `pd.DataFrame(all_data)` (line 961) followed by `_convert_to_float64`
(lines 20-27): outer-join the per-ticker series on the sorted union of
their dates (absent dates are null) and coerce every cell to
numeric-or-null. -/
def mergeSeries (allData : List (String × List (Rat × Option JVal))) : PriceMatrix :=
  let dates := List.insertionSort (fun a b => a ≤ b)
    ((allData.foldl (fun acc kv => acc ++ kv.2.map Prod.fst) []).dedup)
  { dates := dates
  , cols := allData.map (fun kv =>
      (kv.1, dates.map (fun d =>
        match lookupA kv.2 d with
        | some (some v) => coerceCell v
        | some none => none
        | none => none))) }

/-- `fetch_quote_open` (lines 914-967): the whole body in one `try`; any
exception — including iterating a non-iterable `tickers` or a non-string
element — yields the empty frame, as does the no-data case.  The result
type is `Option` so that "never returns `None`" is expressible; `none` is
Python's `None`. -/
def fetchQuoteOpen (oracle : Oracle) (tickers : PyInput) : Option PriceMatrix :=
  let body : Except PyExn PriceMatrix :=
    match tickers with
    | .str s =>
      (fetchOpenLoop oracle [] [.str s]).map (fun ad =>
        if ad.isEmpty then emptyPriceMatrix else mergeSeries ad)
    | .list es =>
      (fetchOpenLoop oracle [] es).map (fun ad =>
        if ad.isEmpty then emptyPriceMatrix else mergeSeries ad)
    | .other => .error .typeError
  match body with
  | .ok m => some m
  | .error _ => some emptyPriceMatrix

/-- `result_df.sort_index()` (line 1190) on one sparse series: stable
ascending sort by date. -/
def sortByDate (xs : List (Rat × Rat)) : List (Rat × Rat) :=
  List.insertionSort (fun a b => a.1 ≤ b.1) xs

instance : IsTotal (Rat × Rat) (fun a b => a.1 ≤ b.1) :=
  ⟨fun a b => le_total a.1 b.1⟩

instance : IsTrans (Rat × Rat) (fun a b => a.1 ≤ b.1) :=
  ⟨fun _ _ _ h1 h2 => le_trans h1 h2⟩

/-- One cell of `reindex(stock_index, method='ffill')` (line 1193) on a
monotone source index: the value at the last position whose date is at
most `d`, null when there is none. -/
def ffillLookup (xs : List (Rat × Rat)) (d : Rat) : Option Rat :=
  xs.foldl (fun acc tv => if tv.1 ≤ d then some tv.2 else acc) none

/-- Lines 1190-1196 of `extract_common_stock_data`, for one ticker
column: `sort_index()`, `reindex(stock_data_df.index, method='ffill')`,
`astype('float64')`.  Dates are abstracted to rationals; values are the
already-coerced numeric cells. -/
def alignSeries (sparse : List (Rat × Rat)) (refIndex : List Rat) : List (Option Rat) :=
  refIndex.map (ffillLookup (sortByDate sparse))

/-- Keep whichever of the accumulated entry and the new entry has the
greater date (ties keep the accumulated one). -/
def maxByDate (acc : Option (Rat × Rat)) (tv : Rat × Rat) : Option (Rat × Rat) :=
  match acc with
  | none => some tv
  | some uv => if uv.1 < tv.1 then some tv else some uv

/-- Spec-side description of forward-fill: among the sparse entries dated
at or before `d`, the value of the one with the greatest date. -/
def latestAtOrBefore (sparse : List (Rat × Rat)) (d : Rat) : Option Rat :=
  ((sparse.filter (fun tv => tv.1 ≤ d)).foldl maxByDate none).map Prod.snd

/-! ### Concrete fixtures used by counterexamples and witnesses -/

/-- A balance-sheet payload with one statement: period 2023-12-31, total
assets 5000 (raw currency units). -/
def bshResponse0 : JVal :=
  .obj [("balanceSheetHistory",
    .obj [("balanceSheetStatements",
      .arr [.obj [("endDate", .str "2023-12-31"), ("totalAssets", .num 5000)]])])]

/-- A transport oracle that has `bshResponse0` for PETR4 and nothing
else. -/
def oracle0 : Oracle := fun e =>
  if e = "api/quote/PETR4.SA" then some bshResponse0 else none

/-- The matrix `oracle0`'s statement tabulates to: one period column,
total assets rescaled to thousands. -/
def matrix0 : MetricMatrix :=
  { cols := ["2023-12-31"], rows := [("Totalassets", [some 5])] }

/-- A balance-sheet payload whose single statement carries one numeric
and one non-numeric field. -/
def bshResponse1 : JVal :=
  .obj [("balanceSheetHistory",
    .obj [("balanceSheetStatements",
      .arr [.obj [("endDate", .str "2023-12-31"), ("totalAssets", .num 5000),
                  ("currency", .str "BRL")]])])]

/-- An oracle whose (truthy) PETR3 payload has no balance-sheet module at
all, so the statements list defaults to empty. -/
def oracleEmpty : Oracle := fun e =>
  if e = "api/quote/PETR3.SA" then some (.obj [("symbol", .str "PETR3")]) else none

/-- An oracle holding `bshResponse0` for PETR4 and a truthy payload with
no balance-sheet module for PETR3. -/
def oracleMix : Oracle := fun e =>
  if e = "api/quote/PETR4.SA" then some bshResponse0
  else if e = "api/quote/PETR3.SA" then some (.obj [("symbol", .str "PETR3")])
  else none

/-- An oracle with one open-price record for PETR4. -/
def oracleOpen : Oracle := fun e =>
  if e = "api/quote/PETR4.SA" then
    some (.arr [.obj [("historicalDataPrice",
      .arr [.obj [("date", .num 1700000000), ("open", .num 10)]])]])
  else none

/-! ### Helper lemmas -/

/-- Appending `.SA` never survives a later strip: the scanner consumes the
appended suffix, because no `.SA` occurrence can straddle the boundary. -/
theorem stripSA_append_sa (s : List Char) :
    stripSA (s ++ ['.', 'S', 'A']) = stripSA s := by
  induction s using stripSA.induct with
  | case1 => decide
  | case2 c =>
    simp only [List.cons_append, List.nil_append, stripSA]
    rw [if_neg (fun h => absurd h.2.1 (by decide))]
    simp [stripSA]
  | case3 c d =>
    simp only [List.cons_append, List.nil_append, stripSA]
    rw [if_neg (fun h => absurd h.2.2 (by decide))]
    rw [if_neg (fun h => absurd h.2.1 (by decide))]
    simp [stripSA]
  | case4 c d e rest h ih =>
    obtain ⟨rfl, rfl, rfl⟩ := h
    simpa [stripSA] using ih
  | case5 c d e rest h ih =>
    simp only [List.cons_append, stripSA]
    rw [if_neg h, if_neg h]
    simpa using ih

/-- Canonicalizing twice is stripping twice and then appending once. -/
theorem canonicalize_canonicalize (t : String) :
    canonicalize (canonicalize t) = ⟨stripSA (stripSA t.data) ++ ['.', 'S', 'A']⟩ := by
  simp only [canonicalize, stripSA_append_sa]

/-- Evaluating `fetch_balance_sheet_history` on the `oracle0` fixture for
the one-element collection input: the result is the one-entry mapping,
keyed by the raw input ticker. -/
theorem fetchBSH_oracle0_list :
    fetchBalanceSheetHistory oracle0 (.list [.str "PETR4"]) =
      some (.mapping [("PETR4", matrix0)]) := by
  have h : fetchBalanceSheetHistory oracle0 (.list [.str "PETR4"]) =
      some (.mapping [("PETR4",
        { cols := ["2023-12-31"],
          rows := [("Totalassets", [some (5000 / 1000)])] })]) := rfl
  rw [h]
  simp only [matrix0]
  norm_num

/-- A key of `setA m key v` is a key of `m` or the inserted key. -/
theorem mem_keys_setA {κ α : Type} [DecidableEq κ]
    (ps : List (κ × α)) (key k : κ) (v : α) :
    k ∈ (setA ps key v).map Prod.fst → k ∈ ps.map Prod.fst ∨ k = key := by
  induction ps with
  | nil =>
    intro h
    simpa [setA] using h
  | cons kw rest ih =>
    obtain ⟨k0, w⟩ := kw
    intro h
    by_cases hk : k0 = key
    · subst hk
      have h2 : k ∈ k0 :: rest.map Prod.fst := by
        simpa [setA] using h
      rcases List.mem_cons.mp h2 with h3 | h3
      · exact Or.inr h3
      · exact Or.inl (List.mem_cons.mpr (Or.inr h3))
    · have h2 : k ∈ k0 :: (setA rest key v).map Prod.fst := by
        simpa [setA, hk] using h
      rcases List.mem_cons.mp h2 with h3 | h3
      · exact Or.inl (List.mem_cons.mpr (Or.inl h3))
      · rcases ih h3 with h4 | h4
        · exact Or.inl (List.mem_cons.mpr (Or.inr h4))
        · exact Or.inr h4

/-- Keys accumulated by the `fetch_balance_sheet_history` loop come from
the accumulator or from string elements of the ticker list. -/
theorem fetchBSHLoop_keys (oracle : Oracle) (es : List PyElem) :
    ∀ (acc results : List (String × MetricMatrix)),
      fetchBSHLoop oracle acc es = .ok results →
      ∀ k ∈ results.map Prod.fst, k ∈ acc.map Prod.fst ∨ PyElem.str k ∈ es := by
  induction es with
  | nil =>
    intro acc results h k hk
    simp only [fetchBSHLoop, Except.ok.injEq] at h
    subst h
    exact Or.inl hk
  | cons e rest ih =>
    intro acc results h k hk
    cases e with
    | nonStr =>
      simp only [fetchBSHLoop] at h
      rcases ih acc results h k hk with h2 | h2
      · exact Or.inl h2
      · exact Or.inr (by simp [h2])
    | str t =>
      cases horacle : oracle (quoteEndpoint t) with
      | none =>
        simp only [fetchBSHLoop, horacle] at h
        rcases ih acc results h k hk with h2 | h2
        · exact Or.inl h2
        · exact Or.inr (by simp [h2])
      | some resp =>
        cases htr : resp.truthy with
        | false =>
          simp [fetchBSHLoop, horacle, htr] at h
          rcases ih acc results h k hk with h2 | h2
          · exact Or.inl h2
          · exact Or.inr (by simp [h2])
        | true =>
          cases hp : processBSHTicker resp with
          | error e2 =>
            simp [fetchBSHLoop, horacle, htr, hp] at h
          | ok om =>
            cases om with
            | none =>
              simp [fetchBSHLoop, horacle, htr, hp] at h
              rcases ih acc results h k hk with h2 | h2
              · exact Or.inl h2
              · exact Or.inr (by simp [h2])
            | some mat =>
              simp [fetchBSHLoop, horacle, htr, hp] at h
              rcases ih _ results h k hk with h2 | h2
              · rcases mem_keys_setA acc t k mat h2 with h3 | h3
                · exact Or.inl h3
                · exact Or.inr (by simp [h3])
              · exact Or.inr (by simp [h2])

/-- Keys accumulated by the `fetch_quote` loop come from the accumulator
or from string elements of the ticker list. -/
theorem fetchQuoteLoop_keys (oracle : Oracle) (es : List PyElem) :
    ∀ (acc results : List (String × QuoteDf)),
      fetchQuoteLoop oracle acc es = .ok results →
      ∀ k ∈ results.map Prod.fst, k ∈ acc.map Prod.fst ∨ PyElem.str k ∈ es := by
  induction es with
  | nil =>
    intro acc results h k hk
    simp only [fetchQuoteLoop, Except.ok.injEq] at h
    subst h
    exact Or.inl hk
  | cons e rest ih =>
    intro acc results h k hk
    cases e with
    | nonStr =>
      simp only [fetchQuoteLoop] at h
      rcases ih acc results h k hk with h2 | h2
      · exact Or.inl h2
      · exact Or.inr (by simp [h2])
    | str t =>
      cases horacle : oracle (quoteEndpoint t) with
      | none =>
        simp only [fetchQuoteLoop, horacle] at h
        rcases ih acc results h k hk with h2 | h2
        · exact Or.inl h2
        · exact Or.inr (by simp [h2])
      | some resp =>
        cases htr : resp.truthy with
        | false =>
          simp [fetchQuoteLoop, horacle, htr] at h
          rcases ih acc results h k hk with h2 | h2
          · exact Or.inl h2
          · exact Or.inr (by simp [h2])
        | true =>
          cases hx : extractHistQuote resp with
          | error e2 =>
            simp [fetchQuoteLoop, horacle, htr, hx] at h
          | ok hist =>
            cases hb : buildQuoteDf hist with
            | error e2 =>
              simp [fetchQuoteLoop, horacle, htr, hx, hb] at h
            | ok odf =>
              cases odf with
              | none =>
                simp [fetchQuoteLoop, horacle, htr, hx, hb] at h
                rcases ih acc results h k hk with h2 | h2
                · exact Or.inl h2
                · exact Or.inr (by simp [h2])
              | some df =>
                simp [fetchQuoteLoop, horacle, htr, hx, hb] at h
                rcases ih _ results h k hk with h2 | h2
                · rcases mem_keys_setA acc t k df h2 with h3 | h3
                  · exact Or.inl h3
                  · exact Or.inr (by simp [h3])
                · exact Or.inr (by simp [h2])

/-- Evaluating `fetch_balance_sheet_history` on the `oracleMix` fixture:
PETR3's empty statements leave it out, PETR4 contributes its matrix. -/
theorem fetchBSH_oracleMix_list :
    fetchBalanceSheetHistory oracleMix (.list [.str "PETR3", .str "PETR4"]) =
      some (.mapping [("PETR4", matrix0)]) := by
  have h : fetchBalanceSheetHistory oracleMix (.list [.str "PETR3", .str "PETR4"]) =
      some (.mapping [("PETR4",
        { cols := ["2023-12-31"],
          rows := [("Totalassets", [some (5000 / 1000)])] })]) := rfl
  rw [h]
  simp only [matrix0]
  norm_num

/-- If every response the oracle can give for ticker `s` tabulates to no
matrix, the `fetch_balance_sheet_history` loop never adds a key `s`. -/
theorem fetchBSHLoop_not_mem (oracle : Oracle) (s : String)
    (hresp : ∀ resp, oracle (quoteEndpoint s) = some resp →
      processBSHTicker resp = .ok none) (es : List PyElem) :
    ∀ (acc results : List (String × MetricMatrix)),
      fetchBSHLoop oracle acc es = .ok results →
      s ∉ acc.map Prod.fst → s ∉ results.map Prod.fst := by
  induction es with
  | nil =>
    intro acc results h hs
    simp only [fetchBSHLoop, Except.ok.injEq] at h
    subst h
    exact hs
  | cons e rest ih =>
    intro acc results h hs
    cases e with
    | nonStr =>
      simp only [fetchBSHLoop] at h
      exact ih acc results h hs
    | str t =>
      cases horacle : oracle (quoteEndpoint t) with
      | none =>
        simp only [fetchBSHLoop, horacle] at h
        exact ih acc results h hs
      | some resp =>
        cases htr : resp.truthy with
        | false =>
          simp [fetchBSHLoop, horacle, htr] at h
          exact ih acc results h hs
        | true =>
          cases hp : processBSHTicker resp with
          | error e2 =>
            simp [fetchBSHLoop, horacle, htr, hp] at h
          | ok om =>
            cases om with
            | none =>
              simp [fetchBSHLoop, horacle, htr, hp] at h
              exact ih acc results h hs
            | some mat =>
              simp [fetchBSHLoop, horacle, htr, hp] at h
              have hts : t ≠ s := by
                intro he
                subst he
                have := hresp resp horacle
                rw [this] at hp
                simp at hp
              refine ih _ results h (fun hmem => ?_)
              rcases mem_keys_setA acc t s mat hmem with h3 | h3
              · exact hs h3
              · exact hts h3.symm

/-- Inversion: `fetch_quote`'s result-shaping step yields a mapping only
by returning `results` itself (the multi-ticker branch). -/
theorem fetchQuoteFinish_mapping (es : List PyElem) (results v : List (String × QuoteDf)) :
    fetchQuoteFinish es results = .ok (some (.mapping v)) → v = results := by
  intro h
  unfold fetchQuoteFinish at h
  split at h
  · simp at h
    exact h.symm
  · split at h
    · simp at h
    · split at h
      · split at h
        · simp at h
        · simp at h
      · simp at h
      · simp at h

/-- With an oracle that always fails, the open-price loop either returns
the accumulator unchanged or dies on a non-string element. -/
theorem fetchOpenLoop_none (es : List PyElem) :
    ∀ acc, fetchOpenLoop (fun _ => none) acc es = .ok acc ∨
      ∃ e, fetchOpenLoop (fun _ => none) acc es = .error e := by
  induction es with
  | nil =>
    intro acc
    left
    rfl
  | cons e rest ih =>
    intro acc
    cases e with
    | nonStr =>
      right
      exact ⟨.attributeError, rfl⟩
    | str t =>
      simpa [fetchOpenLoop] using ih acc

/-- A non-string element anywhere in the ticker list makes the open-price
loop raise, whatever the oracle holds. -/
theorem fetchOpenLoop_nonStr_mem (oracle : Oracle) (es : List PyElem) :
    PyElem.nonStr ∈ es → ∀ acc, ∃ e, fetchOpenLoop oracle acc es = .error e := by
  induction es with
  | nil =>
    intro h
    cases h
  | cons e rest ih =>
    intro h acc
    cases e with
    | nonStr => exact ⟨.attributeError, rfl⟩
    | str t =>
      have hmem : PyElem.nonStr ∈ rest := by
        rcases List.mem_cons.mp h with h2 | h2
        · simp at h2
        · exact h2
      cases horacle : oracle (quoteEndpoint t) with
      | none => simpa [fetchOpenLoop, horacle] using ih hmem acc
      | some resp =>
        cases htr : resp.truthy with
        | false => simpa [fetchOpenLoop, horacle, htr] using ih hmem acc
        | true =>
          cases hx : extractHistOpen resp with
          | error e2 => exact ⟨e2, by simp [fetchOpenLoop, horacle, htr, hx]⟩
          | ok hist =>
            cases hs : extractFieldSeries "open" hist with
            | error e2 => exact ⟨e2, by simp [fetchOpenLoop, horacle, htr, hx, hs]⟩
            | ok os =>
              cases os with
              | none => simpa [fetchOpenLoop, horacle, htr, hx, hs] using ih hmem acc
              | some sr =>
                simpa [fetchOpenLoop, horacle, htr, hx, hs] using ih hmem (setA acc t sr)

/-- The running maximum of `maxByDate` is an element of the folded list,
unless it was already the accumulator. -/
theorem foldl_maxByDate_mem (l : List (Rat × Rat)) :
    ∀ (acc : Option (Rat × Rat)) (p : Rat × Rat),
      l.foldl maxByDate acc = some p → p ∈ l ∨ acc = some p := by
  induction l with
  | nil =>
    intro acc p h
    exact Or.inr h
  | cons tv rest ih =>
    intro acc p h
    rcases ih (maxByDate acc tv) p h with h2 | h2
    · exact Or.inl (List.mem_cons.mpr (Or.inr h2))
    · cases acc with
      | none =>
        exact Or.inl (List.mem_cons.mpr (Or.inl (Option.some.inj h2).symm))
      | some uv =>
        by_cases hcmp : uv.1 < tv.1
        · have he : tv = p := Option.some.inj (by simpa [maxByDate, hcmp] using h2)
          exact Or.inl (List.mem_cons.mpr (Or.inl he.symm))
        · have he : uv = p := Option.some.inj (by simpa [maxByDate, hcmp] using h2)
          exact Or.inr (congrArg some he)

/-- Unfolding `maxByDate` on a present accumulator. -/
theorem maxByDate_some (u x : Rat × Rat) :
    maxByDate (some u) x = some (if u.1 < x.1 then x else u) := by
  by_cases h : u.1 < x.1
  · simp [maxByDate, h]
  · simp [maxByDate, h]

/-- `maxByDate` steps commute when the two entries have distinct dates. -/
theorem maxByDate_comm (x y : Rat × Rat) (hne : x.1 ≠ y.1) (z : Option (Rat × Rat)) :
    maxByDate (maxByDate z x) y = maxByDate (maxByDate z y) x := by
  rcases lt_or_gt_of_ne hne with hlt | hgt
  · cases z with
    | none =>
      show maxByDate (some x) y = maxByDate (some y) x
      rw [maxByDate_some, maxByDate_some]
      split_ifs <;> first | rfl | (exfalso; linarith)
    | some u =>
      rw [maxByDate_some, maxByDate_some, maxByDate_some, maxByDate_some]
      split_ifs <;> first | rfl | (exfalso; linarith)
  · cases z with
    | none =>
      show maxByDate (some x) y = maxByDate (some y) x
      rw [maxByDate_some, maxByDate_some]
      split_ifs <;> first | rfl | (exfalso; linarith)
    | some u =>
      rw [maxByDate_some, maxByDate_some, maxByDate_some, maxByDate_some]
      split_ifs <;> first | rfl | (exfalso; linarith)

/-- With pairwise-distinct dates, `latestAtOrBefore` is invariant under
permutation of the sparse series. -/
theorem latestAtOrBefore_perm (l1 l2 : List (Rat × Rat)) (hp : l1.Perm l2)
    (hnd : (l1.map Prod.fst).Nodup) (d : Rat) :
    latestAtOrBefore l1 d = latestAtOrBefore l2 d := by
  unfold latestAtOrBefore
  have hpf : (l1.filter (fun tv => tv.1 ≤ d)).Perm (l2.filter (fun tv => tv.1 ≤ d)) :=
    hp.filter _
  have hcomm : ∀ x ∈ l1.filter (fun tv => tv.1 ≤ d),
      ∀ y ∈ l1.filter (fun tv => tv.1 ≤ d),
      ∀ z, maxByDate (maxByDate z x) y = maxByDate (maxByDate z y) x := by
    intro x hx y hy z
    by_cases hxy : x = y
    · subst hxy; rfl
    · have hx1 : x ∈ l1 := (List.mem_filter.mp hx).1
      have hy1 : y ∈ l1 := (List.mem_filter.mp hy).1
      have hne : x.1 ≠ y.1 := fun he => hxy (List.inj_on_of_nodup_map hnd hx1 hy1 he)
      exact maxByDate_comm x y hne z
  rw [hpf.foldl_eq' hcomm none]

/-- On a strictly date-sorted series the forward-fill cell equals the
latest-at-or-before entry. -/
theorem ffillLookup_eq_latest_sorted (d : Rat) (ys : List (Rat × Rat)) :
    ys.Pairwise (fun a b => a.1 < b.1) → ffillLookup ys d = latestAtOrBefore ys d := by
  induction ys using List.reverseRecOn with
  | nil =>
    intro _
    rfl
  | append_singleton l x ih =>
    intro hp
    have hpl : l.Pairwise (fun a b => a.1 < b.1) := (List.pairwise_append.mp hp).1
    have hlx : ∀ a ∈ l, a.1 < x.1 := by
      intro a ha
      exact (List.pairwise_append.mp hp).2.2 a ha x (by simp)
    by_cases hxd : x.1 ≤ d
    · have hL : ffillLookup (l ++ [x]) d = some x.2 := by
        simp [ffillLookup, List.foldl_append, hxd]
      have hR : latestAtOrBefore (l ++ [x]) d = some x.2 := by
        unfold latestAtOrBefore
        rw [List.filter_append]
        have hfx : List.filter (fun tv => decide (tv.1 ≤ d)) [x] = [x] := by
          simp [hxd]
        rw [hfx, List.foldl_append]
        cases hA : (l.filter (fun tv => tv.1 ≤ d)).foldl maxByDate none with
        | none => simp [maxByDate]
        | some p =>
          have hpmem : p ∈ l.filter (fun tv => tv.1 ≤ d) := by
            rcases foldl_maxByDate_mem _ none p hA with h2 | h2
            · exact h2
            · exact absurd h2 (by simp)
          have hpx : p.1 < x.1 := hlx p (List.mem_filter.mp hpmem).1
          simp [maxByDate, hpx]
      rw [hL, hR]
    · have hL : ffillLookup (l ++ [x]) d = ffillLookup l d := by
        simp [ffillLookup, List.foldl_append, hxd]
      have hfx : List.filter (fun tv => decide (tv.1 ≤ d)) [x] = [] := by
        simp [hxd]
      rw [hL, ih hpl]
      unfold latestAtOrBefore
      rw [List.filter_append, hfx, List.append_nil]

/-- A fold that only ever replaces the accumulator on a date hit keeps it
unchanged when no date qualifies. -/
theorem foldl_ffill_no_hit (d : Rat) (xs : List (Rat × Rat)) :
    (∀ tv ∈ xs, ¬ tv.1 ≤ d) →
    ∀ acc : Option Rat,
      xs.foldl (fun acc tv => if tv.1 ≤ d then some tv.2 else acc) acc = acc := by
  induction xs with
  | nil =>
    intro _ acc
    rfl
  | cons tv rest ih =>
    intro h acc
    have h1 : ¬ tv.1 ≤ d := h tv (by simp)
    have h2 : ∀ uv ∈ rest, ¬ uv.1 ≤ d := fun uv hm => h uv (by simp [hm])
    simp only [List.foldl_cons, if_neg h1]
    exact ih h2 acc

/-! ### Claim theorems -/

/-- C1: the routing tail of `make_request` returns, for an object
payload, the value of the first present key among the ordered candidates
`results`, `stocks`, `currency`, `inflation`, `prime-rate`, `coins`; when
none is present it returns the object unchanged; a non-object payload is
returned unchanged. -/
theorem c1_envelope_router (payload : JVal) :
    routeEnvelope payload =
      match payload with
      | .obj fields => (firstCandidateValue fields).getD (.obj fields)
      | p => p := by
  cases payload with
  | obj fields =>
    simp only [routeEnvelope, firstCandidateValue, envelopeCandidates,
      List.findSome?_cons, List.findSome?_nil, hasKeyA, getD]
    cases lookupA fields "results" <;>
      cases lookupA fields "stocks" <;>
        cases lookupA fields "currency" <;>
          cases lookupA fields "inflation" <;>
            cases lookupA fields "prime-rate" <;>
              cases lookupA fields "coins" <;> simp
  | null => rfl
  | bool b => rfl
  | num q => rfl
  | str s => rfl
  | arr xs => rfl

/-- C2: `fetch_quote` with a non-string, non-list/tuple `tickers`
argument raises ValueError inside the `try` body, but the outer
`except Exception` (lines 198-200) converts it to a `None` return — the
error never reaches the caller, contradicting the claim (and the repo's
own test, which asserts `fetch_quote(123)` raises ValueError). -/
theorem c2_validation_error_swallowed (oracle : Oracle) :
    fetchQuoteBody oracle .other = .error .valueError ∧
    fetchQuote oracle .other = none :=
  ⟨rfl, rfl⟩

/-- C9 counterexample: the code strips every occurrence of `.SA`, not
just a suffix, and on `"A.S.SAA"` the removal itself creates a fresh
occurrence, so canonicalizing the canonicalized ticker differs from
canonicalizing once. -/
theorem c9_counterexample :
    canonicalize "A.S.SAA" = "A.SA.SA" ∧
    canonicalize (canonicalize "A.S.SAA") = "A.SA" ∧
    canonicalize (canonicalize "A.S.SAA") ≠ canonicalize "A.S.SAA" := by
  refine ⟨by decide, by decide, by decide⟩

/-- C9 amended: canonicalization is idempotent exactly for tickers whose
`.SA`-removal result is itself free of removable occurrences — in
particular for every real-world ticker, where `.SA` occurs at most as a
suffix — but not for arbitrary strings. -/
theorem c9_canonicalize_idempotent_iff (t : String) :
    canonicalize (canonicalize t) = canonicalize t ↔
      stripSA (stripSA t.data) = stripSA t.data := by
  rw [canonicalize_canonicalize]
  simp only [canonicalize]
  constructor
  · intro h
    exact List.append_cancel_right (congrArg String.data h)
  · intro h
    rw [h]

/-- C3 counterexample: the result mapping is keyed by the raw input
ticker `"PETR4"`, which is not in the suffix-canonicalized input
collection `["PETR4.SA"]` — canonicalization is applied only to the
endpoint, never to the result keys. -/
theorem c3_counterexample :
    fetchBalanceSheetHistory oracle0 (.list [.str "PETR4"]) =
      some (.mapping [("PETR4", matrix0)]) ∧
    ["PETR4"].map canonicalize = ["PETR4.SA"] ∧
    "PETR4" ∉ ["PETR4"].map canonicalize :=
  ⟨fetchBSH_oracle0_list, by decide, by decide⟩

/-- C3 amended: for both fan-out fetchers, every key of a returned
mapping is one of the raw input tickers (with no canonicalization
applied to it), so the key set is a subset of the input collection as
given. -/
theorem c3_keys_subset_raw_input (oracle : Oracle) (es : List PyElem) (k : String) :
    (∀ m, fetchQuote oracle (.list es) = some (.mapping m) →
      k ∈ m.map Prod.fst → PyElem.str k ∈ es) ∧
    (∀ m, fetchBalanceSheetHistory oracle (.list es) = some (.mapping m) →
      k ∈ m.map Prod.fst → PyElem.str k ∈ es) := by
  constructor
  · intro m hm hk
    cases h : fetchQuoteLoop oracle [] es with
    | error e => simp [fetchQuote, fetchQuoteBody, h] at hm
    | ok results =>
      have hfin : fetchQuoteFinish es results = .ok (some (.mapping m)) := by
        cases hf : fetchQuoteFinish es results with
        | error e2 => simp [fetchQuote, fetchQuoteBody, h, hf] at hm
        | ok v =>
          have hv : v = some (FetchRet.mapping m) := by
            simpa [fetchQuote, fetchQuoteBody, h, hf] using hm
          exact congrArg Except.ok hv
      have hmr : m = results := fetchQuoteFinish_mapping es results m hfin
      rcases fetchQuoteLoop_keys oracle es [] results h k (hmr ▸ hk) with h2 | h2
      · simp at h2
      · exact h2
  · intro m hm hk
    cases h : fetchBSHLoop oracle [] es with
    | error e => simp [fetchBalanceSheetHistory, fetchBSHBody, h, Except.map] at hm
    | ok results =>
      have hmr : results = m := by
        by_cases hr : results.isEmpty
        · simp [fetchBalanceSheetHistory, fetchBSHBody, h, hr, Except.map] at hm
        · simpa [fetchBalanceSheetHistory, fetchBSHBody, h, hr, Except.map] using hm
      subst hmr
      rcases fetchBSHLoop_keys oracle es [] results h k hk with h2 | h2
      · simp at h2
      · exact h2

/-- C3 witness: the amended subset theorem applied at the concrete
`oracle0` run, whose result mapping has the raw key `"PETR4"`. -/
theorem c3_keys_subset_raw_input_witness :
    PyElem.str "PETR4" ∈ [PyElem.str "PETR4"] :=
  (c3_keys_subset_raw_input oracle0 [.str "PETR4"] "PETR4").2
    [("PETR4", matrix0)] fetchBSH_oracle0_list (by simp)

/-- C4 counterexample: on a successful single string ticker,
`fetch_balance_sheet_history` returns the one-entry ticker-to-matrix
mapping (line 391 returns `results` itself), not the single per-entity
frame — the claim's "never a mapping" fails for this fetcher. -/
theorem c4_counterexample :
    fetchBalanceSheetHistory oracle0 (.str "PETR4") =
      some (.mapping [("PETR4", matrix0)]) := by
  have h : fetchBalanceSheetHistory oracle0 (.str "PETR4") =
      some (.mapping [("PETR4",
        { cols := ["2023-12-31"],
          rows := [("Totalassets", [some (5000 / 1000)])] })]) := rfl
  rw [h]
  simp only [matrix0]
  norm_num

/-- C4 amended: `fetch_quote` with a single string ticker indeed returns
null or that ticker's single frame and never a mapping, but
`fetch_balance_sheet_history` returns null or a ticker-keyed mapping
even for a single string ticker — it never returns a bare frame. -/
theorem c4_single_ticker_shapes (oracle : Oracle) (s : String) :
    (fetchQuote oracle (.str s) = none ∨
      ∃ df, fetchQuote oracle (.str s) = some (.single df)) ∧
    (fetchBalanceSheetHistory oracle (.str s) = none ∨
      ∃ m, fetchBalanceSheetHistory oracle (.str s) = some (.mapping m)) := by
  constructor
  · cases h : fetchQuoteLoop oracle [] [.str s] with
    | error e =>
      left
      simp [fetchQuote, fetchQuoteBody, h]
    | ok results =>
      by_cases hr : results.isEmpty
      · left
        simp [fetchQuote, fetchQuoteBody, fetchQuoteFinish, h, hr]
      · cases hl : lookupA results s with
        | some df =>
          right
          exact ⟨df, by simp [fetchQuote, fetchQuoteBody, fetchQuoteFinish, h, hr, hl]⟩
        | none =>
          left
          simp [fetchQuote, fetchQuoteBody, fetchQuoteFinish, h, hr, hl]
  · cases h : fetchBSHLoop oracle [] [.str s] with
    | error e =>
      left
      simp [fetchBalanceSheetHistory, fetchBSHBody, h, Except.map]
    | ok results =>
      by_cases hr : results.isEmpty
      · left
        simp [fetchBalanceSheetHistory, fetchBSHBody, h, hr, Except.map]
      · right
        exact ⟨results, by simp [fetchBalanceSheetHistory, fetchBSHBody, h, hr, Except.map]⟩

/-- C6: in the balance-sheet tabulation (unit divisor 1000) every numeric
cell value is divided by the divisor exactly, and every non-numeric value
(anything that is not a Python `int`/`float`; booleans are an `int`
subclass and are divided) passes through the rescaling step unchanged. -/
theorem c6_unit_divisor (d k : String) (q : Rat) (v : JVal) (hk : k ≠ "endDate") :
    tabulateGo [] [.obj [("endDate", .str d), (k, .num q)]] =
      .ok [(k, [(d, .num (q / 1000))])] ∧
    ((∀ q2, v ≠ .num q2) → (∀ b, v ≠ .bool b) →
      tabulateGo [] [.obj [("endDate", .str d), (k, v)]] = .ok [(k, [(d, v)])]) := by
  constructor
  · simp [tabulateGo, hasKeyA, lookupA, getD, dateString, recordInto, hk, setA, rescaleCell]
  · intro h1 h2
    have hv : rescaleCell v = v := by
      cases v with
      | num q2 => exact absurd rfl (h1 q2)
      | bool b => exact absurd rfl (h2 b)
      | null => rfl
      | str s => rfl
      | arr xs => rfl
      | obj fields => rfl
    simp [tabulateGo, hasKeyA, lookupA, getD, dateString, recordInto, hk, setA, hv]

/-- C6 witness: the theorem at the spec's scenario — raw 5000 with
divisor 1000 tabulates to the cell 5.0, and the non-numeric `"BRL"`
passes through the rescaling unchanged. -/
theorem c6_unit_divisor_witness :
    tabulateGo [] [.obj [("endDate", .str "2023-12-31"), ("totalAssets", .num 5000)]] =
      .ok [("totalAssets", [("2023-12-31", .num 5)])] ∧
    tabulateGo [] [.obj [("endDate", .str "2023-12-31"), ("currency", .str "BRL")]] =
      .ok [("currency", [("2023-12-31", .str "BRL")])] := by
  have h := c6_unit_divisor "2023-12-31" "totalAssets" 5000 (.str "BRL") (by decide)
  have h2 := c6_unit_divisor "2023-12-31" "currency" 5000 (.str "BRL") (by decide)
  refine ⟨h.1.trans ?_, h2.2 (by intro q2 hq; cases hq) (by intro b hb; cases hb)⟩
  norm_num

/-- C7: an entity whose statement sequence is empty or absent produces no
matrix (the loop adds no entry for it; a single-entity call returns
null; it is absent from a collection call's mapping) — never an empty
matrix — and tabulation coerces a non-numeric field's cell to null while
the numeric fields keep their (rescaled) values. -/
theorem c7_empty_absent_and_coercion :
    (∀ resp, bshStatements resp = .ok (.arr []) → processBSHTicker resp = .ok none) ∧
    (∀ (oracle : Oracle) (s : String) (resp : JVal),
      oracle (quoteEndpoint s) = some resp → bshStatements resp = .ok (.arr []) →
      fetchBalanceSheetHistory oracle (.str s) = none) ∧
    (∀ (oracle : Oracle) (s : String) (es : List PyElem)
        (m : List (String × MetricMatrix)),
      (∀ resp, oracle (quoteEndpoint s) = some resp →
        bshStatements resp = .ok (.arr [])) →
      fetchBalanceSheetHistory oracle (.list es) = some (.mapping m) →
      s ∉ m.map Prod.fst) ∧
    processBSHTicker bshResponse1 =
      .ok (some { cols := ["2023-12-31"],
                  rows := [("Totalassets", [some 5]), ("Currency", [none])] }) := by
  have key : ∀ resp, bshStatements resp = .ok (.arr []) →
      processBSHTicker resp = .ok none := by
    intro resp hst
    simp [processBSHTicker, hst, JVal.truthy]
  refine ⟨key, ?_, ?_, ?_⟩
  · intro oracle s resp ho hst
    have hp := key resp hst
    cases htr : resp.truthy with
    | true =>
      simp [fetchBalanceSheetHistory, fetchBSHBody, fetchBSHLoop, ho, htr, hp, Except.map]
    | false =>
      simp [fetchBalanceSheetHistory, fetchBSHBody, fetchBSHLoop, ho, htr, Except.map]
  · intro oracle s es m hresp hm
    have hresp2 : ∀ resp, oracle (quoteEndpoint s) = some resp →
        processBSHTicker resp = .ok none := fun resp h => key resp (hresp resp h)
    cases h : fetchBSHLoop oracle [] es with
    | error e => simp [fetchBalanceSheetHistory, fetchBSHBody, h, Except.map] at hm
    | ok results =>
      have hmr : results = m := by
        by_cases hr : results.isEmpty
        · simp [fetchBalanceSheetHistory, fetchBSHBody, h, hr, Except.map] at hm
        · simpa [fetchBalanceSheetHistory, fetchBSHBody, h, hr, Except.map] using hm
      subst hmr
      exact fetchBSHLoop_not_mem oracle s hresp2 es [] results h (by simp)
  · have h : processBSHTicker bshResponse1 =
        .ok (some { cols := ["2023-12-31"],
                    rows := [("Totalassets", [some (5000 / 1000)]),
                             ("Currency", [none])] }) := rfl
    rw [h]
    norm_num

/-- C7 witness: the theorem applied at concrete inputs — a payload with
no balance-sheet module tabulates to no matrix, the single-entity call on
`oracleEmpty` returns null, and PETR3 (empty statements under
`oracleMix`) is absent from the collection call's mapping. -/
theorem c7_empty_absent_and_coercion_witness :
    processBSHTicker (.obj []) = .ok none ∧
    fetchBalanceSheetHistory oracleEmpty (.str "PETR3") = none ∧
    "PETR3" ∉ ([("PETR4", matrix0)].map Prod.fst) := by
  refine ⟨c7_empty_absent_and_coercion.1 (.obj []) rfl,
          c7_empty_absent_and_coercion.2.1 oracleEmpty "PETR3"
            (.obj [("symbol", .str "PETR3")]) rfl rfl,
          c7_empty_absent_and_coercion.2.2.1 oracleMix "PETR3"
            [.str "PETR3", .str "PETR4"] [("PETR4", matrix0)] ?_
            fetchBSH_oracleMix_list⟩
  intro resp h
  have h0 : oracleMix (quoteEndpoint "PETR3") =
      some (JVal.obj [("symbol", JVal.str "PETR3")]) := rfl
  rw [h0] at h
  obtain rfl : JVal.obj [("symbol", JVal.str "PETR3")] = resp := Option.some.inj h
  rfl

/-- C8: a price-field extractor always returns a frame — never Python's
`None` — and with a transport that fails for every request (so every
ticker fails and yields no rows) it returns the empty frame. -/
theorem c8_extractor_never_null (oracle : Oracle) (tickers : PyInput) :
    (∃ pm, fetchQuoteOpen oracle tickers = some pm) ∧
    fetchQuoteOpen (fun _ => none) tickers = some emptyPriceMatrix := by
  constructor
  · cases tickers with
    | other => exact ⟨emptyPriceMatrix, rfl⟩
    | str s =>
      cases h : fetchOpenLoop oracle [] [PyElem.str s] with
      | error e => exact ⟨emptyPriceMatrix, by simp [fetchQuoteOpen, h, Except.map]⟩
      | ok ad =>
        by_cases ha : ad.isEmpty
        · exact ⟨emptyPriceMatrix, by simp [fetchQuoteOpen, h, ha, Except.map]⟩
        · exact ⟨mergeSeries ad, by simp [fetchQuoteOpen, h, ha, Except.map]⟩
    | list es =>
      cases h : fetchOpenLoop oracle [] es with
      | error e => exact ⟨emptyPriceMatrix, by simp [fetchQuoteOpen, h, Except.map]⟩
      | ok ad =>
        by_cases ha : ad.isEmpty
        · exact ⟨emptyPriceMatrix, by simp [fetchQuoteOpen, h, ha, Except.map]⟩
        · exact ⟨mergeSeries ad, by simp [fetchQuoteOpen, h, ha, Except.map]⟩
  · cases tickers with
    | other => rfl
    | str s =>
      rcases fetchOpenLoop_none [PyElem.str s] [] with h | ⟨e, h⟩
      · simp [fetchQuoteOpen, h, Except.map, emptyPriceMatrix]
      · simp [fetchQuoteOpen, h, Except.map]
    | list es =>
      rcases fetchOpenLoop_none es [] with h | ⟨e, h⟩
      · simp [fetchQuoteOpen, h, Except.map, emptyPriceMatrix]
      · simp [fetchQuoteOpen, h, Except.map]

/-- C10: one non-string element in the ticker list given to
`fetch_quote_open` makes the whole call return the empty frame — the
exception raised at `ticker.replace` is only caught at the function's
outer boundary, discarding every other ticker's data, unlike the
per-ticker skip of the statement fetchers. -/
theorem c10_nonstring_discards_batch (oracle : Oracle) (es : List PyElem)
    (h : PyElem.nonStr ∈ es) :
    fetchQuoteOpen oracle (.list es) = some emptyPriceMatrix := by
  obtain ⟨e, he⟩ := fetchOpenLoop_nonStr_mem oracle es h []
  simp [fetchQuoteOpen, he, Except.map]

/-- C5: the Series Aligner's forward-fill — for a sparse series with
pairwise-distinct dates, each aligned cell is the most recent sparse
value at or before the reference date, and reference dates strictly
before every sparse date are null; cells are uniformly numeric-or-null
(float64-or-NaN in the source). -/
theorem c5_align_forward_fill (sparse : List (Rat × Rat)) (refIndex : List Rat)
    (hnd : (sparse.map Prod.fst).Nodup) :
    alignSeries sparse refIndex = refIndex.map (latestAtOrBefore sparse) ∧
    (∀ d, (∀ tv ∈ sparse, d < tv.1) → ffillLookup (sortByDate sparse) d = none) := by
  have hperm : (sortByDate sparse).Perm sparse := List.perm_insertionSort _ sparse
  constructor
  · unfold alignSeries
    refine List.map_congr_left ?_
    intro d _
    have hnd2 : ((sortByDate sparse).map Prod.fst).Nodup :=
      ((hperm.map Prod.fst).nodup_iff).mpr hnd
    have hsorted : (sortByDate sparse).Sorted (fun a b => a.1 ≤ b.1) :=
      List.sorted_insertionSort _ sparse
    have hne : (sortByDate sparse).Pairwise (fun a b => a.1 ≠ b.1) :=
      List.pairwise_map.mp hnd2
    have hlt : (sortByDate sparse).Pairwise (fun a b => a.1 < b.1) :=
      (List.Pairwise.and hsorted hne).imp (fun h => lt_of_le_of_ne h.1 h.2)
    exact (ffillLookup_eq_latest_sorted d (sortByDate sparse) hlt).trans
      (latestAtOrBefore_perm (sortByDate sparse) sparse hperm hnd2 d)
  · intro d hd
    refine foldl_ffill_no_hit d (sortByDate sparse) ?_ none
    intro tv hm
    exact not_le.mpr (hd tv (hperm.subset hm))

/-- C5 witness: the theorem at the spec's scenario — reference dates
[1,2,3] with sparse {1: 10} align to [10,10,10]; with sparse {2: 5} the
reference date 1 (before the first sparse date) is null. -/
theorem c5_align_forward_fill_witness :
    alignSeries [(1, 10)] [1, 2, 3] = [some 10, some 10, some 10] ∧
    ffillLookup (sortByDate [(2, 5)]) 1 = none ∧
    alignSeries [(2, 5)] [1, 2, 3] = [none, some 5, some 5] := by
  have h1 := (c5_align_forward_fill [(1, 10)] [1, 2, 3] (by simp)).1
  have h2 := (c5_align_forward_fill [(2, 5)] [1, 2, 3] (by simp)).2 1 ?_
  · have h3 := (c5_align_forward_fill [(2, 5)] [1, 2, 3] (by simp)).1
    refine ⟨h1.trans ?_, h2, h3.trans ?_⟩
    · norm_num [latestAtOrBefore, maxByDate]
    · norm_num [latestAtOrBefore, maxByDate]
  · intro tv htv
    obtain rfl := List.mem_singleton.mp htv
    norm_num

/-- C10 witness: under `oracleOpen`, PETR4 alone yields a one-column
frame, but batching it with a non-string element empties the result. -/
theorem c10_nonstring_discards_batch_witness :
    fetchQuoteOpen oracleOpen (.list [.str "PETR4", .nonStr]) = some emptyPriceMatrix ∧
    fetchQuoteOpen oracleOpen (.list [.str "PETR4"]) =
      some { dates := [1700000000], cols := [("PETR4", [some 10])] } := by
  refine ⟨c10_nonstring_discards_batch oracleOpen [.str "PETR4", .nonStr] (by simp), ?_⟩
  rfl

end BrapiWrapper
